import Mathlib

/-!
# rdmamap: discovery of RDMA devices through sysfs

A shallow embedding of `rdma_map.go`.  Go strings and byte slices are lists of
byte values; the filesystem and the netlink lookup are parameters; a Go call
either returns its `(value, error)` pair or panics.
-/

namespace Rdmamap

/-- A Go `string` or `[]byte`: the sequence of its byte values. -/
abbrev Bytes := List Nat

/-- The byte values of an ASCII literal. -/
def ascii (s : String) : Bytes := s.toList.map Char.toNat

/-- A Go `error` value. -/
inductive GoError where
  /-- an error produced by the environment (package os, package netlink) -/
  | os (code : Nat)
  /-- the `*strconv.NumError` of `strconv.ParseUint` on the text `num` -/
  | numError (num : Bytes)
  /-- the error built by `fmt.Errorf` from the message `msg` -/
  | errorf (msg : Bytes)
  deriving DecidableEq, Repr

/-- What a Go call with results `(α, error)` does: it returns a value and an
error (`none` is `nil`), or it panics. -/
inductive Outcome (α : Type) where
  | returned (val : α) (err : Option GoError)
  | panicked
  deriving DecidableEq, Repr

/-- Equality of the results of the environment is decidable. -/
instance decEqExcept {ε α : Type} [DecidableEq ε] [DecidableEq α] : DecidableEq (Except ε α)
  | .ok a, .ok b =>
    if h : a = b then isTrue (congrArg Except.ok h)
    else isFalse (fun h' => h (Except.ok.inj h'))
  | .error a, .error b =>
    if h : a = b then isTrue (congrArg Except.error h)
    else isFalse (fun h' => h (Except.error.inj h'))
  | .ok _, .error _ => isFalse (fun h' => Except.noConfusion h')
  | .error _, .ok _ => isFalse (fun h' => Except.noConfusion h')

/-- An `os.FileInfo` as far as the program looks at it. -/
structure FileInfo where
  Name : Bytes
  IsDir : Bool
  deriving DecidableEq, Repr

/-- The filesystem the program reads.
`readdir p` is `os.Open(p)` followed by `fd.Readdir(-1)`: the error of `os.Open`,
or the entries `Readdir` handed back (the program discards the error of `Readdir`).
`readAll p` is `os.OpenFile(p, O_RDONLY, 0444)` followed by `ioutil.ReadAll`:
the error of either, or the content. -/
structure SysFS where
  readdir : Bytes → Except GoError (List FileInfo)
  readAll : Bytes → Except GoError Bytes

/-- The part of `netlink.LinkAttrs` the program looks at. -/
structure LinkAttrs where
  EncapType : Bytes
  HardwareAddr : List Nat
  deriving DecidableEq, Repr

def RdmaClassDir : Bytes := ascii "/sys/class/infiniband"
def RdmaIbUcmDir : Bytes := ascii "/sys/class/infiniband_cm"
def RdmaUcmFilePrefix : Bytes := ascii "ucm"
def RdmaUmadDir : Bytes := ascii "/sys/class/infiniband_mad"
def RdmaIssmFilePrefix : Bytes := ascii "issm"
def RdmaUmadFilxPrefix : Bytes := ascii "umad"
def RdmaUverbsDir : Bytes := ascii "/sys/class/infiniband_verbs"
def RdmaUverbsFilxPrefix : Bytes := ascii "uverbs"
def RdmaGidAttrDir : Bytes := ascii "gid_attrs"
def RdmaGidAttrNdevDir : Bytes := ascii "ndevs"
def RdmaPortsdir : Bytes := ascii "ports"
def RdmaNodeGuidFile : Bytes := ascii "node_guid"

/-! ## The library functions the program calls -/

/-- The pieces of a path between its separators: `strings.Split(path, "/")`. -/
def splitSep : Bytes → List Bytes
  | [] => [[]]
  | c :: cs =>
    if c = 47 then [] :: splitSep cs
    else
      match splitSep cs with
      | [] => [[c]]
      | h :: t => (c :: h) :: t

/-- One path element of `filepath.Clean`: an empty element and `.` are dropped,
`..` removes the element before it (at the start of a path that is not rooted
it is kept, at the start of a rooted path it is dropped), any other element is
kept.  `out` holds the elements kept so far. -/
def cleanStep (rooted : Bool) (out : List Bytes) (e : Bytes) : List Bytes :=
  if e = [] ∨ e = [46] then out
  else if e = [46, 46] then
    match out.getLast? with
    | none => if rooted then out else out ++ [e]
    | some top => if top = [46, 46] then out ++ [e] else out.dropLast
  else out ++ [e]

/-- Go's `filepath.Clean` on a Unix path. -/
def filepathClean (path : Bytes) : Bytes :=
  if path = [] then [46]
  else
    let rooted : Bool := path.head? = some 47
    let out := (splitSep path).foldl (cleanStep rooted) []
    let s := (if rooted then [47] else []) ++ List.intercalate [47] out
    if s = [] then [46] else s

/-- Go's `filepath.Join`: the elements from the first one that is not empty,
joined by separators, then cleaned; the empty string when all are empty. -/
def filepathJoin (elem : List Bytes) : Bytes :=
  match elem.dropWhile (fun e => e.isEmpty) with
  | [] => []
  | es => filepathClean (List.intercalate [47] es)

/-- Go's `strings.Contains`. -/
def stringsContains : Bytes → Bytes → Bool
  | [], substr => substr.isEmpty
  | c :: cs, substr => substr.isPrefixOf (c :: cs) || stringsContains cs substr

/-- Go's `strings.TrimSuffix`. -/
def stringsTrimSuffix (s suffix : Bytes) : Bytes :=
  if suffix.isSuffixOf s then s.take (s.length - suffix.length) else s

/-- Go's `bytes.Compare`: the lexicographic order, as -1, 0 or 1. -/
def bytesCompare : List Nat → List Nat → Int
  | [], [] => 0
  | [], _ :: _ => -1
  | _ :: _, [] => 1
  | a :: as, b :: bs =>
    if a < b then -1 else if b < a then 1 else bytesCompare as bs

/-- Go's conversion `string(b)` of a byte `b`: the UTF-8 text of the code point
`b`, one byte below 128 and two bytes from 128 on. -/
def stringOfByte (b : Nat) : Bytes :=
  if b < 128 then [b] else [192 + b / 64, 128 + b % 64]

/-- The call `strconv.ParseUint(string(b), 16, 8)` on one byte `b`: the value of
the hexadecimal digit `b` (`0-9`, `a-f`, `A-F`), a `NumError` that names the
text on any other byte. -/
def strconvParseUint (b : Nat) : Except GoError Nat :=
  if 48 ≤ b ∧ b ≤ 57 then .ok (b - 48)
  else if 97 ≤ b ∧ b ≤ 102 then .ok (b - 97 + 10)
  else if 65 ≤ b ∧ b ≤ 70 then .ok (b - 65 + 10)
  else .error (.numError (stringOfByte b))

/-! ## The program -/

/-- The loop of `GetRdmaDeviceList` over the entries of the class root. -/
def GetRdmaDeviceList.loop : List FileInfo → List Bytes → List Bytes
  | [], rdmaDevices => rdmaDevices
  | fi :: rest, rdmaDevices =>
    if fi.IsDir then GetRdmaDeviceList.loop rest rdmaDevices
    else GetRdmaDeviceList.loop rest (rdmaDevices ++ [fi.Name])

/-- Returns a list of rdma device names. -/
def GetRdmaDeviceList (fs : SysFS) : List Bytes :=
  match fs.readdir RdmaClassDir with
  | .error _ => []
  | .ok fileInfos => GetRdmaDeviceList.loop fileInfos []

def isDirForRdmaDevice (fs : SysFS) (rdmaDeviceName dirName : Bytes) : Bool :=
  let fileName := filepathJoin [dirName, ascii "ibdev"]
  match fs.readAll fileName with
  | .error _ => false
  | .ok data => stringsContains data rdmaDeviceName

/-- The loop of `getCharDevice` over the entries of the class directory. -/
def getCharDevice.loop (fs : SysFS) (rdmaDeviceName classDir charDevPrefix : Bytes) :
    List FileInfo → Outcome Bytes
  | [] => .returned [] (some (.errorf (ascii "No ucm device found")))
  | fi :: rest =>
    if fi.Name = ascii "." ∨ fi.Name = ascii ".." then
      getCharDevice.loop fs rdmaDeviceName classDir charDevPrefix rest
    else if stringsContains fi.Name charDevPrefix = false then
      getCharDevice.loop fs rdmaDeviceName classDir charDevPrefix rest
    else
      let dirName := filepathJoin [classDir, fi.Name]
      if isDirForRdmaDevice fs rdmaDeviceName dirName = false then
        getCharDevice.loop fs rdmaDeviceName classDir charDevPrefix rest
      else
        let deviceFile := filepathJoin [ascii "/dev/infiniband", fi.Name]
        .returned deviceFile none

def getCharDevice (fs : SysFS) (rdmaDeviceName classDir charDevPrefix : Bytes) :
    Outcome Bytes :=
  match fs.readdir classDir with
  | .error err => .returned [] (some err)
  | .ok fileInfos => getCharDevice.loop fs rdmaDeviceName classDir charDevPrefix fileInfos

def getUcmDevice (fs : SysFS) (rdmaDeviceName : Bytes) : Outcome Bytes :=
  getCharDevice fs rdmaDeviceName RdmaIbUcmDir RdmaUcmFilePrefix

def getIssmDevice (fs : SysFS) (rdmaDeviceName : Bytes) : Outcome Bytes :=
  getCharDevice fs rdmaDeviceName RdmaUmadDir RdmaIssmFilePrefix

def getUmadDevice (fs : SysFS) (rdmaDeviceName : Bytes) : Outcome Bytes :=
  getCharDevice fs rdmaDeviceName RdmaUmadDir RdmaUmadFilxPrefix

def getUverbDevice (fs : SysFS) (rdmaDeviceName : Bytes) : Outcome Bytes :=
  getCharDevice fs rdmaDeviceName RdmaUverbsDir RdmaUverbsFilxPrefix

/-- One `x, err := get…Device(name); if err == nil { append }` of
`GetRdmaCharDevices`; `none` when the call panicked. -/
def appendIfNoError (rdmaCharDevices : List Bytes) : Outcome Bytes → Option (List Bytes)
  | .returned dev none => some (rdmaCharDevices ++ [dev])
  | .returned _ (some _) => some rdmaCharDevices
  | .panicked => none

/-- Returns a list of character device absolute path for a requested
rdmaDeviceName; `none` when a call panicked. -/
def GetRdmaCharDevices (fs : SysFS) (rdmaDeviceName : Bytes) : Option (List Bytes) := do
  let rdmaCharDevices : List Bytes := []
  let rdmaCharDevices ← appendIfNoError rdmaCharDevices (getUcmDevice fs rdmaDeviceName)
  let rdmaCharDevices ← appendIfNoError rdmaCharDevices (getIssmDevice fs rdmaDeviceName)
  let rdmaCharDevices ← appendIfNoError rdmaCharDevices (getUmadDevice fs rdmaDeviceName)
  let rdmaCharDevices ← appendIfNoError rdmaCharDevices (getUverbDevice fs rdmaDeviceName)
  return rdmaCharDevices

/-- The loop of `getPorts` and of `getNetdeviceIds` over the entries of a directory. -/
def namesLoop : List FileInfo → List Bytes → List Bytes
  | [], names => names
  | fi :: rest, names =>
    if fi.Name = ascii "." ∨ fi.Name = ascii ".." then namesLoop rest names
    else namesLoop rest (names ++ [fi.Name])

def getPorts (fs : SysFS) (rdmaDeviceName : Bytes) : List Bytes :=
  let portsDir := filepathJoin [RdmaClassDir, rdmaDeviceName, RdmaPortsdir]
  match fs.readdir portsDir with
  | .error _ => []
  | .ok fileInfos => namesLoop fileInfos []

def getNetdeviceIds (fs : SysFS) (rdmaDeviceName port : Bytes) : List Bytes :=
  let dir := filepathJoin [RdmaClassDir, rdmaDeviceName, RdmaPortsdir, port,
    RdmaGidAttrDir, RdmaGidAttrNdevDir]
  match fs.readdir dir with
  | .error _ => []
  | .ok fileInfos => namesLoop fileInfos []

def isNetdevForRdma (fs : SysFS) (rdmaDeviceName port index netdevName : Bytes) : Bool :=
  let fileName := filepathJoin [RdmaClassDir, rdmaDeviceName, RdmaPortsdir, port,
    RdmaGidAttrDir, RdmaGidAttrNdevDir, index]
  match fs.readAll fileName with
  | .error _ => false
  | .ok data =>
    if stringsTrimSuffix data (ascii "\n") = netdevName then true else false

/-- The innermost loop of `getRdmaDeviceForEth`, over the indices of one port:
`some` is the early return, `none` is the loop running to its end. -/
def getRdmaDeviceForEth.indexLoop (fs : SysFS) (netdevName dev port : Bytes) :
    List Bytes → Option (Outcome Bytes)
  | [] => none
  | index :: rest =>
    let found := isNetdevForRdma fs dev port index netdevName
    if found = true then some (.returned dev none)
    else getRdmaDeviceForEth.indexLoop fs netdevName dev port rest

/-- The middle loop of `getRdmaDeviceForEth`, over the ports of one device. -/
def getRdmaDeviceForEth.portLoop (fs : SysFS) (netdevName dev : Bytes) :
    List Bytes → Option (Outcome Bytes)
  | [] => none
  | port :: rest =>
    let indices := getNetdeviceIds fs dev port
    match getRdmaDeviceForEth.indexLoop fs netdevName dev port indices with
    | some r => some r
    | none => getRdmaDeviceForEth.portLoop fs netdevName dev rest

/-- The outer loop of `getRdmaDeviceForEth`, over the devices. -/
def getRdmaDeviceForEth.devLoop (fs : SysFS) (netdevName : Bytes) :
    List Bytes → Option (Outcome Bytes)
  | [] => none
  | dev :: rest =>
    let ports := getPorts fs dev
    match getRdmaDeviceForEth.portLoop fs netdevName dev ports with
    | some r => some r
    | none => getRdmaDeviceForEth.devLoop fs netdevName rest

def getRdmaDeviceForEth (fs : SysFS) (netdevName : Bytes) : Outcome Bytes :=
  let devices := GetRdmaDeviceList fs
  match getRdmaDeviceForEth.devLoop fs netdevName devices with
  | some r => r
  | none => .returned [] none

/-- The loop of `getNodeGuid` over the bytes of `data`, with the slice
`nodeGuid` and the counter `j`.  `byte(c)<<4` is taken modulo 256; the write
`nodeGuid[j/2] |= byte(c)` panics when `j/2` is not an index of `nodeGuid`. -/
def getNodeGuid.loop : Bytes → List Nat → Nat → Outcome (List Nat)
  | [], nodeGuid, _ => .returned nodeGuid none
  | b :: rest, nodeGuid, j =>
    if b = 58 then getNodeGuid.loop rest nodeGuid j
    else
      match strconvParseUint b with
      | .error err => .returned [] (some err)
      | .ok c =>
        if j % 2 = 0 then
          getNodeGuid.loop rest (nodeGuid ++ [(c % 256) * 16 % 256]) (j + 1)
        else if j / 2 < nodeGuid.length then
          getNodeGuid.loop rest
            (nodeGuid.set (j / 2) ((nodeGuid.getD (j / 2) 0) ||| (c % 256))) (j + 1)
        else .panicked

/-- The decoding part of `getNodeGuid`, from the content `data` of the file:
the slice `data[:len(data)-1]` panics on the empty content. -/
def getNodeGuid.decode (data : Bytes) : Outcome (List Nat) :=
  if data.length = 0 then .panicked
  else getNodeGuid.loop (data.take (data.length - 1)) [] 0

def getNodeGuid (fs : SysFS) (rdmaDeviceName : Bytes) : Outcome (List Nat) :=
  let fileName := filepathJoin [RdmaClassDir, rdmaDeviceName, RdmaNodeGuidFile]
  match fs.readAll fileName with
  | .error err => .returned [] (some err)
  | .ok data => getNodeGuid.decode data

/-- The loop of `getRdmaDeviceForIb` over the devices. -/
def getRdmaDeviceForIb.loop (fs : SysFS) (lleui64 : List Nat) : List Bytes → Outcome Bytes
  | [] => .returned [] none
  | dev :: rest =>
    match getNodeGuid fs dev with
    | .panicked => .panicked
    | .returned _ (some err) => .returned [] (some err)
    | .returned nodeGuid none =>
      if bytesCompare lleui64 nodeGuid = 0 then .returned dev none
      else getRdmaDeviceForIb.loop fs lleui64 rest

set_option linter.unusedVariables false in
/-- The slice `linkAttr.HardwareAddr[12:]` panics on an address of fewer than
12 bytes. -/
def getRdmaDeviceForIb (fs : SysFS) (netdevName : Bytes) (linkAttr : LinkAttrs) :
    Outcome Bytes :=
  if linkAttr.HardwareAddr.length < 12 then .panicked
  else
    let lleui64 := linkAttr.HardwareAddr.drop 12
    let devices := GetRdmaDeviceList fs
    getRdmaDeviceForIb.loop fs lleui64 devices

/-- Get RDMA device for the netdevice: `linkByName` is `netlink.LinkByName`
followed by `handle.Attrs()`. -/
def GetRdmaDeviceForNetdevice (linkByName : Bytes → Except GoError LinkAttrs) (fs : SysFS)
    (netdevName : Bytes) : Outcome Bytes :=
  match linkByName netdevName with
  | .error err => .returned [] (some err)
  | .ok netAttr =>
    if netAttr.EncapType = ascii "ether" then getRdmaDeviceForEth fs netdevName
    else if netAttr.EncapType = ascii "infiniband" then
      getRdmaDeviceForIb fs netdevName netAttr
    else .returned [] (some (.errorf (ascii "Unknown device type")))

/-! ## Words of the specification -/

/-- A hexadecimal digit: `0-9`, `a-f` or `A-F`. -/
def isHexDigit (b : Nat) : Prop :=
  (48 ≤ b ∧ b ≤ 57) ∨ (97 ≤ b ∧ b ≤ 102) ∨ (65 ≤ b ∧ b ≤ 70)

instance (b : Nat) : Decidable (isHexDigit b) := by
  unfold isHexDigit; infer_instance

/-- The number of bytes of `data` that are not a colon. -/
def nonColonCount (data : Bytes) : Nat := (data.filter (fun b => b ≠ 58)).length

/-- The hexadecimal digit of the value `n`, in upper or in lower case. -/
def hexDigit (upper : Bool) (n : Nat) : Nat :=
  if n < 10 then 48 + n else if upper then 55 + n else 87 + n

/-- The byte `b` written as two hexadecimal digits, high four bits first;
`upper k` is the case of the digit at place `k` of the text. -/
def hexPair (upper : Nat → Bool) (i b : Nat) : Bytes :=
  [hexDigit (upper (2 * i)) (b / 16), hexDigit (upper (2 * i + 1)) (b % 16)]

/-- The bytes `B` written as two-digit hexadecimal pairs separated by colons,
the first pair being pair number `i`. -/
def colonHex (upper : Nat → Bool) : Nat → List Nat → Bytes
  | _, [] => []
  | i, [b] => hexPair upper i b
  | i, b :: b' :: bs => hexPair upper i b ++ 58 :: colonHex upper (i + 1) (b' :: bs)

/-- The text of a node GUID file holding the bytes `B`: the colon-separated
hexadecimal pairs and one trailing newline. -/
def guidText (upper : Nat → Bool) (B : List Nat) : Bytes := colonHex upper 0 B ++ [10]

/-- A filesystem given by the listing of its directories and the content of
its files; every other path fails with `ENOENT`. -/
def treeFS (dirs : List (Bytes × List FileInfo)) (files : List (Bytes × Bytes)) : SysFS where
  readdir p := match dirs.lookup p with
    | some entries => .ok entries
    | none => .error (.os 2)
  readAll p := match files.lookup p with
    | some data => .ok data
    | none => .error (.os 2)

/-- A device whose `node_guid` file holds one pair of digits only. -/
def shortGuidFS : SysFS :=
  treeFS [(ascii "/sys/class/infiniband", [⟨ascii "mlx5_0", false⟩])]
    [(ascii "/sys/class/infiniband/mlx5_0/node_guid", ascii "ab\n")]

/-- A device whose `node_guid` file is empty. -/
def emptyGuidFS : SysFS :=
  treeFS [(ascii "/sys/class/infiniband", [⟨ascii "mlx5_0", false⟩])]
    [(ascii "/sys/class/infiniband/mlx5_0/node_guid", [])]

/-- Two InfiniBand devices with their node GUIDs. -/
def twoGuidFS : SysFS :=
  treeFS [(ascii "/sys/class/infiniband", [⟨ascii "mlx5_0", false⟩, ⟨ascii "mlx5_1", false⟩])]
    [(ascii "/sys/class/infiniband/mlx5_0/node_guid", ascii "00:1b:21:aa:ff:cc:dd:01\n"),
     (ascii "/sys/class/infiniband/mlx5_1/node_guid", ascii "00:1b:21:aa:ff:cc:dd:02\n")]

/-- A class root whose only child is a directory. -/
def dirChildFS : SysFS :=
  treeFS [(ascii "/sys/class/infiniband", [⟨ascii "mlx5_0", true⟩])] []

/-- A class root whose only device has no `node_guid` file. -/
def missingGuidFS : SysFS :=
  treeFS [(ascii "/sys/class/infiniband", [⟨ascii "mlx5_0", false⟩])] []

/-- Two devices; port 1 of the first is bound to `eth0`, port 1 of the second to
`eth1` and, in a second entry of its table, to `eth0` as well. -/
def ethFS : SysFS :=
  treeFS
    [(ascii "/sys/class/infiniband", [⟨ascii "mlx5_0", false⟩, ⟨ascii "mlx5_1", false⟩]),
     (ascii "/sys/class/infiniband/mlx5_0/ports", [⟨ascii "1", true⟩]),
     (ascii "/sys/class/infiniband/mlx5_0/ports/1/gid_attrs/ndevs", [⟨ascii "0", false⟩]),
     (ascii "/sys/class/infiniband/mlx5_1/ports", [⟨ascii "1", true⟩]),
     (ascii "/sys/class/infiniband/mlx5_1/ports/1/gid_attrs/ndevs",
       [⟨ascii "0", false⟩, ⟨ascii "1", false⟩])]
    [(ascii "/sys/class/infiniband/mlx5_0/ports/1/gid_attrs/ndevs/0", ascii "eth0\n"),
     (ascii "/sys/class/infiniband/mlx5_1/ports/1/gid_attrs/ndevs/0", ascii "eth1\n"),
     (ascii "/sys/class/infiniband/mlx5_1/ports/1/gid_attrs/ndevs/1", ascii "eth0\n")]

/-- The device `dev` has a port and an index in the netdev table of that port
whose file can be read and holds, with one trailing newline removed, exactly
`netdevName`. -/
def ethMatch (fs : SysFS) (netdevName dev : Bytes) : Prop :=
  ∃ port ∈ getPorts fs dev, ∃ index ∈ getNetdeviceIds fs dev port, ∃ data,
    fs.readAll (filepathJoin [RdmaClassDir, dev, RdmaPortsdir, port,
      RdmaGidAttrDir, RdmaGidAttrNdevDir, index]) = .ok data
    ∧ stringsTrimSuffix data (ascii "\n") = netdevName

/-- The node GUID of `dev` was read and decoded, and differs from `eui`. -/
def guidDiffers (fs : SysFS) (eui : List Nat) (dev : Bytes) : Prop :=
  ∃ g, getNodeGuid fs dev = .returned g none ∧ g ≠ eui

/-- The node GUID of `dev` cannot be read or decoded: `getNodeGuid` returns an error. -/
def guidFails (fs : SysFS) (dev : Bytes) : Prop :=
  ∃ v e, getNodeGuid fs dev = .returned v (some e)

/-- The `node_guid` file of `dev` is not an empty file. -/
def guidFileNotEmpty (fs : SysFS) (dev : Bytes) : Prop :=
  fs.readAll (filepathJoin [RdmaClassDir, dev, RdmaNodeGuidFile]) ≠ .ok []

/-- The 20-byte IPoIB hardware address that ends with the 8 bytes `eui`. -/
def ipoibAddr (eui : List Nat) : List Nat :=
  [0x80, 0x00, 0x02, 0x08, 0xfe, 0x80, 0x00, 0x00, 0x00, 0x00, 0x00, 0x00] ++ eui

/-- A 16-byte hardware address whose last 8 bytes are `00 1b 21 aa ff cc dd 01`. -/
def shortAddr : List Nat :=
  [0xfe, 0x80, 0x00, 0x00, 0x00, 0x00, 0x00, 0x00,
   0x00, 0x1b, 0x21, 0xaa, 0xff, 0xcc, 0xdd, 0x01]

/-- The walk of `getRdmaDeviceForIb` over `devices` reaches `dev`: the node GUID
of every device before it was decoded and differs from `eui`. -/
def reached (fs : SysFS) (eui : List Nat) (devices : List Bytes) (dev : Bytes) : Prop :=
  ∃ pre post, devices = pre ++ dev :: post ∧ ∀ d ∈ pre, guidDiffers fs eui d

/-- Four devices: the second has no `node_guid` file, the fourth an empty one. -/
def failingGuidFS : SysFS :=
  treeFS
    [(ascii "/sys/class/infiniband",
      [⟨ascii "mlx5_0", false⟩, ⟨ascii "mlx5_1", false⟩, ⟨ascii "mlx5_2", false⟩,
       ⟨ascii "mlx5_3", false⟩])]
    [(ascii "/sys/class/infiniband/mlx5_0/node_guid", ascii "00:1b:21:aa:ff:cc:dd:01\n"),
     (ascii "/sys/class/infiniband/mlx5_2/node_guid", ascii "00:1b:21:aa:ff:cc:dd:02\n"),
     (ascii "/sys/class/infiniband/mlx5_3/node_guid", [])]

/-- Two devices: the first has an empty `node_guid` file, the second none. -/
def emptyThenMissingFS : SysFS :=
  treeFS
    [(ascii "/sys/class/infiniband", [⟨ascii "mlx5_0", false⟩, ⟨ascii "mlx5_1", false⟩])]
    [(ascii "/sys/class/infiniband/mlx5_0/node_guid", [])]

/-- A link table: `eth0` is an Ethernet link, `ib0` an InfiniBand link, `lo` a
loopback link, and no other link exists (`ENODEV`). -/
def exampleLinks (name : Bytes) : Except GoError LinkAttrs :=
  if name = ascii "eth0" then .ok ⟨ascii "ether", [0x00, 0x1b, 0x21, 0xaa, 0xff, 0xcc]⟩
  else if name = ascii "ib0" then
    .ok ⟨ascii "infiniband", ipoibAddr [0x00, 0x1b, 0x21, 0xaa, 0xff, 0xcc, 0xdd, 0x02]⟩
  else if name = ascii "lo" then .ok ⟨ascii "loopback", [0, 0, 0, 0, 0, 0]⟩
  else .error (.os 19)

/-- A name a directory entry can have: not empty and without a separator. -/
def validEntryName (name : Bytes) : Prop := name ≠ [] ∧ 47 ∉ name

/-- The entry `name` of `classDir` belongs to the device: its sibling `ibdev`
file can be read and its content contains the name of the device. -/
def ownedBy (fs : SysFS) (rdmaDeviceName classDir name : Bytes) : Bool :=
  match fs.readAll (filepathJoin [filepathJoin [classDir, name], ascii "ibdev"]) with
  | .error _ => false
  | .ok data => stringsContains data rdmaDeviceName

/-- The path of one category of character device, in the words of the
specification: the first entry of `classDir`, in listing order, whose name
contains `pfx` and which belongs to the device, under `/dev/infiniband/`;
nothing when there is no such entry or `classDir` cannot be opened. -/
def firstCharDevice (fs : SysFS) (rdmaDeviceName classDir pfx : Bytes) : Option Bytes :=
  match fs.readdir classDir with
  | .error _ => none
  | .ok entries =>
    (entries.find? (fun fi =>
      stringsContains fi.Name pfx && ownedBy fs rdmaDeviceName classDir fi.Name)).map
      (fun fi => ascii "/dev/infiniband/" ++ fi.Name)

instance (name : Bytes) : Decidable (validEntryName name) := by
  unfold validEntryName; infer_instance

/-- The names of the entries of the three class directories of the character
devices are names a directory entry can have. -/
def charDirsValid (fs : SysFS) : Prop :=
  ∀ dir ∈ [RdmaIbUcmDir, RdmaUmadDir, RdmaUverbsDir], ∀ entries,
    fs.readdir dir = .ok entries → ∀ fi ∈ entries, validEntryName fi.Name

/-- The character devices of two RDMA devices, those of `mlx5_0` listed first,
and one uverbs entry of a third device, `mlx4_0`. -/
def charFS : SysFS :=
  treeFS
    [(ascii "/sys/class/infiniband_cm", [⟨ascii "ucm0", false⟩, ⟨ascii "ucm1", false⟩]),
     (ascii "/sys/class/infiniband_mad",
       [⟨ascii "issm0", false⟩, ⟨ascii "umad0", false⟩, ⟨ascii "issm1", false⟩,
        ⟨ascii "umad1", false⟩]),
     (ascii "/sys/class/infiniband_verbs",
       [⟨ascii "uverbs0", false⟩, ⟨ascii "uverbs1", false⟩, ⟨ascii "uverbs2", false⟩])]
    [(ascii "/sys/class/infiniband_cm/ucm0/ibdev", ascii "mlx5_0\n"),
     (ascii "/sys/class/infiniband_cm/ucm1/ibdev", ascii "mlx5_1\n"),
     (ascii "/sys/class/infiniband_mad/issm0/ibdev", ascii "mlx5_0\n"),
     (ascii "/sys/class/infiniband_mad/umad0/ibdev", ascii "mlx5_0\n"),
     (ascii "/sys/class/infiniband_mad/issm1/ibdev", ascii "mlx5_1\n"),
     (ascii "/sys/class/infiniband_mad/umad1/ibdev", ascii "mlx5_1\n"),
     (ascii "/sys/class/infiniband_verbs/uverbs0/ibdev", ascii "mlx5_0\n"),
     (ascii "/sys/class/infiniband_verbs/uverbs1/ibdev", ascii "mlx5_1\n"),
     (ascii "/sys/class/infiniband_verbs/uverbs2/ibdev", ascii "mlx4_0\n")]

/-! ## Lemmas on the library functions -/

theorem strconvParseUint_of_hex {b : Nat} (h : isHexDigit b) :
    ∃ c, strconvParseUint b = .ok c ∧ c < 16 := by
  unfold isHexDigit at h
  unfold strconvParseUint
  rcases h with h | h | h
  · exact ⟨b - 48, by simp [h], by omega⟩
  · refine ⟨b - 97 + 10, ?_, by omega⟩
    have h1 : ¬ (48 ≤ b ∧ b ≤ 57) := by omega
    simp [h1, h]
  · refine ⟨b - 65 + 10, ?_, by omega⟩
    have h1 : ¬ (48 ≤ b ∧ b ≤ 57) := by omega
    have h2 : ¬ (97 ≤ b ∧ b ≤ 102) := by omega
    simp [h1, h2, h]

theorem strconvParseUint_of_not_hex {b : Nat} (h : ¬ isHexDigit b) :
    strconvParseUint b = .error (.numError (stringOfByte b)) := by
  unfold isHexDigit at h
  unfold strconvParseUint
  have h1 : ¬ (48 ≤ b ∧ b ≤ 57) := fun h' => h (Or.inl h')
  have h2 : ¬ (97 ≤ b ∧ b ≤ 102) := fun h' => h (Or.inr (Or.inl h'))
  have h3 : ¬ (65 ≤ b ∧ b ≤ 70) := fun h' => h (Or.inr (Or.inr h'))
  simp [h1, h2, h3]

theorem strconvParseUint_hexDigit (upper : Bool) {n : Nat} (h : n < 16) :
    strconvParseUint (hexDigit upper n) = .ok n := by
  unfold hexDigit strconvParseUint
  by_cases h10 : n < 10
  · have : 48 + n ≤ 57 := by omega
    simp [h10, this]
  · cases upper
    · have h1 : ¬ (48 ≤ 87 + n ∧ 87 + n ≤ 57) := by omega
      have h2 : 97 ≤ 87 + n ∧ 87 + n ≤ 102 := by omega
      have h3 : 87 + n - 97 + 10 = n := by omega
      simp only [h10, if_false, h1, h2, if_true, Bool.false_eq_true, h3, and_self]
    · have h1 : ¬ (48 ≤ 55 + n ∧ 55 + n ≤ 57) := by omega
      have h2 : ¬ (97 ≤ 55 + n ∧ 55 + n ≤ 102) := by omega
      have h3 : 65 ≤ 55 + n ∧ 55 + n ≤ 70 := by omega
      have h4 : 55 + n - 65 + 10 = n := by omega
      simp only [h10, if_false, h1, h2, h3, if_true, h4, and_self]

theorem hexDigit_ne_colon (upper : Bool) {n : Nat} (h : n < 16) : hexDigit upper n ≠ 58 := by
  unfold hexDigit
  split
  · omega
  · split <;> omega

set_option maxRecDepth 100000 in
theorem nibbles_lor : ∀ b < 256, ((b / 16 % 256) * 16 % 256) ||| (b % 16 % 256) = b := by
  decide

/-! ## Lemmas on the loop of `getNodeGuid` -/

theorem getNodeGuid_loop_colon (rest : Bytes) (g : List Nat) (j : Nat) :
    getNodeGuid.loop (58 :: rest) g j = getNodeGuid.loop rest g j := by
  simp [getNodeGuid.loop]

theorem getNodeGuid_loop_bad {b : Nat} (rest : Bytes) (g : List Nat) (j : Nat)
    (hc : b ≠ 58) (hb : ¬ isHexDigit b) :
    getNodeGuid.loop (b :: rest) g j = .returned [] (some (.numError (stringOfByte b))) := by
  simp [getNodeGuid.loop, hc, strconvParseUint_of_not_hex hb]

theorem getNodeGuid_loop_even {b c : Nat} (rest : Bytes) (g : List Nat) (j : Nat)
    (hc : b ≠ 58) (hb : strconvParseUint b = .ok c) (hj : j % 2 = 0) :
    getNodeGuid.loop (b :: rest) g j
      = getNodeGuid.loop rest (g ++ [(c % 256) * 16 % 256]) (j + 1) := by
  simp [getNodeGuid.loop, hc, hb, hj]

theorem getNodeGuid_loop_odd {b c : Nat} (rest : Bytes) (g : List Nat) (j : Nat)
    (hc : b ≠ 58) (hb : strconvParseUint b = .ok c) (hj : j % 2 = 1)
    (hlen : j / 2 < g.length) :
    getNodeGuid.loop (b :: rest) g j
      = getNodeGuid.loop rest (g.set (j / 2) ((g.getD (j / 2) 0) ||| (c % 256))) (j + 1) := by
  have hj0 : ¬ j % 2 = 0 := by omega
  simp [getNodeGuid.loop, hc, hb, hj0, hlen]

/-- On bytes that are all colons or hexadecimal digits the loop returns, without
error, `⌈(j + k) / 2⌉` bytes, `k` being the number of digits read. -/
theorem getNodeGuid_loop_ok (rest : Bytes) :
    ∀ (g : List Nat) (j : Nat), g.length = (j + 1) / 2 →
      (∀ b ∈ rest, b = 58 ∨ isHexDigit b) →
      ∃ v, getNodeGuid.loop rest g j = .returned v none
        ∧ v.length = (j + nonColonCount rest + 1) / 2 := by
  induction rest with
  | nil =>
    intro g j hg _
    exact ⟨g, by simp [getNodeGuid.loop], by simpa [nonColonCount] using hg⟩
  | cons b rest ih =>
    intro g j hg hall
    have hrest : ∀ x ∈ rest, x = 58 ∨ isHexDigit x :=
      fun x hx => hall x (List.mem_cons_of_mem _ hx)
    by_cases hc : b = 58
    · subst hc
      obtain ⟨v, hv, hl⟩ := ih g j hg hrest
      refine ⟨v, by rw [getNodeGuid_loop_colon]; exact hv, ?_⟩
      simpa [nonColonCount] using hl
    · have hhex : isHexDigit b := (hall b (List.mem_cons_self _ _)).resolve_left hc
      obtain ⟨c, hpc, _⟩ := strconvParseUint_of_hex hhex
      have hcount : nonColonCount (b :: rest) = nonColonCount rest + 1 := by
        simp [nonColonCount, hc]
      rcases Nat.mod_two_eq_zero_or_one j with hj | hj
      · obtain ⟨v, hv, hl⟩ := ih (g ++ [(c % 256) * 16 % 256]) (j + 1)
          (by simp; omega) hrest
        refine ⟨v, by rw [getNodeGuid_loop_even rest g j hc hpc hj]; exact hv, ?_⟩
        rw [hl, hcount]; congr 1; omega
      · have hlen : j / 2 < g.length := by omega
        obtain ⟨v, hv, hl⟩ := ih (g.set (j / 2) ((g.getD (j / 2) 0) ||| (c % 256))) (j + 1)
          (by simp; omega) hrest
        refine ⟨v, by rw [getNodeGuid_loop_odd rest g j hc hpc hj hlen]; exact hv, ?_⟩
        rw [hl, hcount]; congr 1; omega

/-- A byte that is neither a colon nor a hexadecimal digit makes the loop
return the error of `strconv.ParseUint`, and no bytes. -/
theorem getNodeGuid_loop_err (rest : Bytes) :
    ∀ (g : List Nat) (j : Nat), g.length = (j + 1) / 2 →
      (∃ b ∈ rest, b ≠ 58 ∧ ¬ isHexDigit b) →
      ∃ b ∈ rest, b ≠ 58 ∧ ¬ isHexDigit b
        ∧ getNodeGuid.loop rest g j = .returned [] (some (.numError (stringOfByte b))) := by
  induction rest with
  | nil =>
    intro g j _ h
    obtain ⟨b, hb, _⟩ := h
    simp at hb
  | cons b rest ih =>
    intro g j hg hex
    by_cases hc : b = 58
    · subst hc
      have hex' : ∃ x ∈ rest, x ≠ 58 ∧ ¬ isHexDigit x := by
        obtain ⟨x, hx, h1, h2⟩ := hex
        rcases List.mem_cons.mp hx with rfl | hx
        · exact absurd rfl h1
        · exact ⟨x, hx, h1, h2⟩
      obtain ⟨x, hx, h1, h2, h3⟩ := ih g j hg hex'
      exact ⟨x, List.mem_cons_of_mem _ hx, h1, h2, by rw [getNodeGuid_loop_colon]; exact h3⟩
    · by_cases hhex : isHexDigit b
      · have hex' : ∃ x ∈ rest, x ≠ 58 ∧ ¬ isHexDigit x := by
          obtain ⟨x, hx, h1, h2⟩ := hex
          rcases List.mem_cons.mp hx with rfl | hx
          · exact absurd hhex h2
          · exact ⟨x, hx, h1, h2⟩
        obtain ⟨c, hpc, _⟩ := strconvParseUint_of_hex hhex
        rcases Nat.mod_two_eq_zero_or_one j with hj | hj
        · obtain ⟨x, hx, h1, h2, h3⟩ := ih (g ++ [(c % 256) * 16 % 256]) (j + 1)
            (by simp; omega) hex'
          exact ⟨x, List.mem_cons_of_mem _ hx, h1, h2,
            by rw [getNodeGuid_loop_even rest g j hc hpc hj]; exact h3⟩
        · have hlen : j / 2 < g.length := by omega
          obtain ⟨x, hx, h1, h2, h3⟩ :=
            ih (g.set (j / 2) ((g.getD (j / 2) 0) ||| (c % 256))) (j + 1) (by simp; omega) hex'
          exact ⟨x, List.mem_cons_of_mem _ hx, h1, h2,
            by rw [getNodeGuid_loop_odd rest g j hc hpc hj hlen]; exact h3⟩
      · exact ⟨b, List.mem_cons_self _ _, hc, hhex, getNodeGuid_loop_bad rest g j hc hhex⟩

/-- The loop never panics: the write `nodeGuid[j/2]` is always inside the slice. -/
theorem getNodeGuid_loop_total (rest : Bytes) (g : List Nat) (j : Nat)
    (hg : g.length = (j + 1) / 2) :
    (∃ v, getNodeGuid.loop rest g j = .returned v none
        ∧ v.length = (j + nonColonCount rest + 1) / 2)
      ∨ ∃ b ∈ rest, b ≠ 58 ∧ ¬ isHexDigit b
        ∧ getNodeGuid.loop rest g j = .returned [] (some (.numError (stringOfByte b))) := by
  by_cases h : ∃ b ∈ rest, b ≠ 58 ∧ ¬ isHexDigit b
  · exact Or.inr (getNodeGuid_loop_err rest g j hg h)
  · refine Or.inl (getNodeGuid_loop_ok rest g j hg ?_)
    intro b hb
    by_contra hcon
    exact h ⟨b, hb, fun h58 => hcon (Or.inl h58), fun hh => hcon (Or.inr hh)⟩

/-- One pair of digits adds the byte it spells. -/
theorem getNodeGuid_loop_hexPair (upper : Nat → Bool) (i : Nat) {b : Nat} (hb : b < 256)
    (rest : Bytes) (g : List Nat) (j : Nat) (hj : j = 2 * g.length) :
    getNodeGuid.loop (hexPair upper i b ++ rest) g j
      = getNodeGuid.loop rest (g ++ [b]) (j + 2) := by
  have hhi : b / 16 < 16 := by omega
  have hlo : b % 16 < 16 := Nat.mod_lt _ (by decide)
  simp only [hexPair, List.cons_append, List.nil_append]
  rw [getNodeGuid_loop_even _ g j (hexDigit_ne_colon _ hhi) (strconvParseUint_hexDigit _ hhi)
    (by omega)]
  rw [getNodeGuid_loop_odd _ _ (j + 1) (hexDigit_ne_colon _ hlo)
    (strconvParseUint_hexDigit _ hlo) (by omega) (by simp; omega)]
  have hidx : (j + 1) / 2 = g.length := by omega
  rw [hidx]
  have hn := nibbles_lor b hb
  rw [Nat.mod_eq_of_lt (show b / 16 < 256 by omega)] at hn
  simp [hn]

theorem getNodeGuid_loop_colonHex (upper : Nat → Bool) (B : List Nat) :
    ∀ (i : Nat) (g : List Nat), (∀ b ∈ B, b < 256) →
      getNodeGuid.loop (colonHex upper i B) g (2 * g.length) = .returned (g ++ B) none := by
  induction B with
  | nil => intro i g _; simp [colonHex, getNodeGuid.loop]
  | cons b bs ih =>
    intro i g hB
    have hb : b < 256 := hB b (List.mem_cons_self _ _)
    have hbs : ∀ x ∈ bs, x < 256 := fun x hx => hB x (List.mem_cons_of_mem _ hx)
    cases bs with
    | nil =>
      have := getNodeGuid_loop_hexPair upper i hb [] g (2 * g.length) rfl
      simp only [List.append_nil] at this
      show getNodeGuid.loop (hexPair upper i b) g (2 * g.length) = _
      rw [this]
      simp [getNodeGuid.loop]
    | cons b' bs' =>
      simp only [colonHex]
      rw [getNodeGuid_loop_hexPair upper i hb _ g (2 * g.length) rfl, getNodeGuid_loop_colon]
      have := ih (i + 1) (g ++ [b]) hbs
      simp only [List.length_append, List.length_singleton, Nat.mul_add, Nat.mul_one,
        List.append_assoc, List.singleton_append] at this
      exact this

/-! ## The node GUID decoder -/

theorem getNodeGuid_decode_eq {data : Bytes} (h : data ≠ []) :
    getNodeGuid.decode data = getNodeGuid.loop data.dropLast [] 0 := by
  have hl : data.length ≠ 0 := fun h0 => h (List.length_eq_zero.mp h0)
  simp [getNodeGuid.decode, hl, List.dropLast_eq_take]

/-- On a content that is not empty the decoder returns: bytes and no error, or
no bytes and the error of the first byte that is not a digit. -/
theorem getNodeGuid_decode_total {data : Bytes} (h : data ≠ []) :
    (∃ v, getNodeGuid.decode data = .returned v none
        ∧ v.length = (nonColonCount data.dropLast + 1) / 2)
      ∨ ∃ b ∈ data.dropLast, b ≠ 58 ∧ ¬ isHexDigit b
        ∧ getNodeGuid.decode data = .returned [] (some (.numError (stringOfByte b))) := by
  rw [getNodeGuid_decode_eq h]
  simpa using getNodeGuid_loop_total data.dropLast [] 0 rfl

theorem colonHex_length (upper : Nat → Bool) (B : List Nat) :
    ∀ i : Nat, B ≠ [] → (colonHex upper i B).length + 1 = 3 * B.length := by
  induction B with
  | nil => intro i h; exact absurd rfl h
  | cons b bs ih =>
    intro i _
    cases bs with
    | nil => simp [colonHex, hexPair]
    | cons b' bs' =>
      have := ih (i + 1) (by simp)
      simp only [colonHex, hexPair, List.cons_append, List.nil_append, List.length_cons] at this ⊢
      omega

/-- C1: for every 8-byte sequence `B`, the text that writes `B` as two-digit
hexadecimal pairs (in either case) separated by colons and ends with one
newline, 24 characters in all, is decoded by `getNodeGuid`, without error, to
exactly `B`. -/
theorem getNodeGuid_decode_guidText (upper : Nat → Bool) (B : List Nat)
    (hlen : B.length = 8) (hB : ∀ b ∈ B, b < 256) :
    getNodeGuid.decode (guidText upper B) = .returned B none
      ∧ (guidText upper B).length = 24 := by
  refine ⟨?_, by
    have hne : B ≠ [] := fun h => by simp [h] at hlen
    have := colonHex_length upper B 0 hne
    simp only [guidText, List.length_append, List.length_singleton]
    omega⟩
  have hne : guidText upper B ≠ [] := by simp [guidText]
  rw [getNodeGuid_decode_eq hne]
  have hdrop : (guidText upper B).dropLast = colonHex upper 0 B := by
    simp [guidText, List.dropLast_concat]
  rw [hdrop]
  simpa using getNodeGuid_loop_colonHex upper B 0 [] hB

/-- The text `00:1b:21:aa:ff:cc:dd:01` with its newline is the text of the bytes
`00 1b 21 aa ff cc dd 01` and decodes to them. -/
theorem getNodeGuid_decode_guidText_witness :
    guidText (fun _ => false) [0x00, 0x1b, 0x21, 0xaa, 0xff, 0xcc, 0xdd, 0x01]
        = ascii "00:1b:21:aa:ff:cc:dd:01\n"
      ∧ [0x00, 0x1b, 0x21, 0xaa, 0xff, 0xcc, 0xdd, 0x01].length = 8
      ∧ (∀ b ∈ [0x00, 0x1b, 0x21, 0xaa, 0xff, 0xcc, 0xdd, 0x01], b < 256)
      ∧ getNodeGuid.decode
          (guidText (fun _ => false) [0x00, 0x1b, 0x21, 0xaa, 0xff, 0xcc, 0xdd, 0x01])
        = .returned [0x00, 0x1b, 0x21, 0xaa, 0xff, 0xcc, 0xdd, 0x01] none :=
  ⟨by decide, by decide, by decide,
    (getNodeGuid_decode_guidText (fun _ => false)
      [0x00, 0x1b, 0x21, 0xaa, 0xff, 0xcc, 0xdd, 0x01] (by decide) (by decide)).1⟩

/-- C2, as the code has it: the decoder returns an error and no bytes exactly
when a byte other than the last one of the text is neither a hexadecimal digit
nor a colon; the error is that of `strconv.ParseUint` and the outcome is a
function of the text alone. -/
theorem getNodeGuid_decode_error_iff (data : Bytes) :
    (∃ b ∈ data.dropLast, b ≠ 58 ∧ ¬ isHexDigit b)
      ↔ ∃ e, getNodeGuid.decode data = .returned [] (some e) := by
  by_cases hne : data = []
  · subst hne
    simp [getNodeGuid.decode]
  · constructor
    · intro h
      rw [getNodeGuid_decode_eq hne]
      obtain ⟨b, _, _, _, hb⟩ := getNodeGuid_loop_err data.dropLast [] 0 rfl h
      exact ⟨_, hb⟩
    · rintro ⟨e, he⟩
      rcases getNodeGuid_decode_total hne with ⟨v, hv, _⟩ | ⟨b, hb, h1, h2, _⟩
      · rw [hv] at he
        simp at he
      · exact ⟨b, hb, h1, h2⟩

/-- A `g` in the second pair of digits makes the decoder fail. -/
theorem getNodeGuid_decode_error_iff_witness :
    (∃ b ∈ (ascii "00:1g:21:aa:ff:cc:dd:01\n").dropLast, b ≠ 58 ∧ ¬ isHexDigit b)
      ∧ ∃ e, getNodeGuid.decode (ascii "00:1g:21:aa:ff:cc:dd:01\n") = .returned [] (some e) :=
  ⟨⟨103, by decide, by decide, by decide⟩,
    (getNodeGuid_decode_error_iff (ascii "00:1g:21:aa:ff:cc:dd:01\n")).mp
      ⟨103, by decide, by decide, by decide⟩⟩

/-- C2 as stated fails: the newline that ends a node GUID file is neither a
hexadecimal digit nor a colon, and the text is decoded without error. -/
theorem getNodeGuid_decode_newline_accepted :
    (∃ b ∈ ascii "00:1b:21:aa:ff:cc:dd:01\n", b ≠ 58 ∧ ¬ isHexDigit b)
      ∧ getNodeGuid.decode (ascii "00:1b:21:aa:ff:cc:dd:01\n")
        = .returned [0x00, 0x1b, 0x21, 0xaa, 0xff, 0xcc, 0xdd, 0x01] none :=
  ⟨⟨10, by decide, by decide, by decide⟩, by decide⟩

/-- C3, as the code has it: when `getNodeGuid` succeeds the file was read and the
node GUID has `⌈k / 2⌉` bytes, `k` being the number of bytes of the content
before its last one that are not colons; it has 8 bytes exactly when `k` is 15
or 16. -/
theorem getNodeGuid_length (fs : SysFS) (dev : Bytes) (g : List Nat)
    (h : getNodeGuid fs dev = .returned g none) :
    ∃ data, fs.readAll (filepathJoin [RdmaClassDir, dev, RdmaNodeGuidFile]) = .ok data
      ∧ g.length = (nonColonCount data.dropLast + 1) / 2
      ∧ (g.length = 8 ↔ nonColonCount data.dropLast = 15 ∨ nonColonCount data.dropLast = 16) := by
  unfold getNodeGuid at h
  simp only at h
  cases hr : fs.readAll (filepathJoin [RdmaClassDir, dev, RdmaNodeGuidFile]) with
  | error e => rw [hr] at h; simp at h
  | ok data =>
    rw [hr] at h
    simp only at h
    by_cases hne : data = []
    · subst hne
      simp [getNodeGuid.decode] at h
    · rcases getNodeGuid_decode_total hne with ⟨v, hv, hl⟩ | ⟨b, _, _, _, hb⟩
      · rw [hv] at h
        simp only [Outcome.returned.injEq, and_true] at h
        subst h
        exact ⟨data, rfl, hl, by omega⟩
      · rw [hb] at h
        simp at h

/-- The node GUID of the first device of `twoGuidFS` has 8 bytes. -/
theorem getNodeGuid_length_witness :
    getNodeGuid twoGuidFS (ascii "mlx5_0")
        = .returned [0x00, 0x1b, 0x21, 0xaa, 0xff, 0xcc, 0xdd, 0x01] none
      ∧ ∃ data, twoGuidFS.readAll (filepathJoin [RdmaClassDir, ascii "mlx5_0", RdmaNodeGuidFile])
          = .ok data
        ∧ [0x00, 0x1b, 0x21, 0xaa, 0xff, 0xcc, 0xdd, 0x01].length
          = (nonColonCount data.dropLast + 1) / 2
        ∧ ([0x00, 0x1b, 0x21, 0xaa, 0xff, 0xcc, 0xdd, 0x01].length = 8
          ↔ nonColonCount data.dropLast = 15 ∨ nonColonCount data.dropLast = 16) :=
  ⟨by decide, getNodeGuid_length twoGuidFS (ascii "mlx5_0") _ (by decide)⟩

/-- C3 as stated fails: on the content `ab` and a newline `getNodeGuid`
succeeds with one byte. -/
theorem getNodeGuid_one_byte :
    getNodeGuid shortGuidFS (ascii "mlx5_0") = .returned [0xab] none
      ∧ [0xab].length ≠ 8 := by
  decide

/-- C4 at the failing input: on the empty content of the `node_guid` file the
slice `data[:len(data)-1]` is out of bounds and `getNodeGuid` panics; on every
other content it returns, so the write `nodeGuid[j/2]` is never out of bounds. -/
theorem getNodeGuid_empty_file_panics :
    getNodeGuid emptyGuidFS (ascii "mlx5_0") = .panicked
      ∧ getNodeGuid.decode [] = .panicked
      ∧ ∀ data : Bytes, data ≠ [] → getNodeGuid.decode data ≠ .panicked := by
  refine ⟨by decide, by decide, ?_⟩
  intro data hne hp
  rcases getNodeGuid_decode_total hne with ⟨v, hv, _⟩ | ⟨b, _, _, _, hb⟩
  · rw [hv] at hp; simp at hp
  · rw [hb] at hp; simp at hp

/-! ## Listing the devices -/

theorem GetRdmaDeviceList_loop_eq (fileInfos : List FileInfo) :
    ∀ acc : List Bytes, GetRdmaDeviceList.loop fileInfos acc
      = acc ++ (fileInfos.filter (fun fi => !fi.IsDir)).map (fun fi => fi.Name) := by
  induction fileInfos with
  | nil => intro acc; simp [GetRdmaDeviceList.loop]
  | cons fi rest ih =>
    intro acc
    cases hd : fi.IsDir
    · simp [GetRdmaDeviceList.loop, hd, ih]
    · simp [GetRdmaDeviceList.loop, hd, ih]

/-- C7, as the code has it: `GetRdmaDeviceList` returns the names of the
children of the class root that are not directories, each once and in listing
order; it returns the empty list when the class root cannot be opened or has no
such child. -/
theorem GetRdmaDeviceList_eq (fs : SysFS) :
    GetRdmaDeviceList fs =
      match fs.readdir RdmaClassDir with
      | .error _ => []
      | .ok fileInfos => (fileInfos.filter (fun fi => !fi.IsDir)).map (fun fi => fi.Name) := by
  unfold GetRdmaDeviceList
  cases fs.readdir RdmaClassDir with
  | error e => rfl
  | ok fileInfos => simp [GetRdmaDeviceList_loop_eq]

/-- C7 as stated fails: a child of the class root that is a directory is left
out of the list. -/
theorem GetRdmaDeviceList_skips_directory :
    dirChildFS.readdir RdmaClassDir = .ok [⟨ascii "mlx5_0", true⟩]
      ∧ GetRdmaDeviceList dirChildFS = [] := by
  decide

/-! ## The Ethernet matcher -/

theorem isNetdevForRdma_iff (fs : SysFS) (dev port index netdevName : Bytes) :
    isNetdevForRdma fs dev port index netdevName = true
      ↔ ∃ data, fs.readAll (filepathJoin [RdmaClassDir, dev, RdmaPortsdir, port,
          RdmaGidAttrDir, RdmaGidAttrNdevDir, index]) = .ok data
        ∧ stringsTrimSuffix data (ascii "\n") = netdevName := by
  unfold isNetdevForRdma
  simp only
  cases fs.readAll (filepathJoin [RdmaClassDir, dev, RdmaPortsdir, port,
      RdmaGidAttrDir, RdmaGidAttrNdevDir, index]) with
  | error e => simp
  | ok data => simp

theorem getRdmaDeviceForEth_indexLoop_eq (fs : SysFS) (netdevName dev port : Bytes)
    (indices : List Bytes) :
    getRdmaDeviceForEth.indexLoop fs netdevName dev port indices
      = if indices.any (fun index => isNetdevForRdma fs dev port index netdevName)
        then some (.returned dev none) else none := by
  induction indices with
  | nil => simp [getRdmaDeviceForEth.indexLoop]
  | cons index rest ih =>
    cases h : isNetdevForRdma fs dev port index netdevName
    · simp [getRdmaDeviceForEth.indexLoop, h, ih]
    · simp [getRdmaDeviceForEth.indexLoop, h]

theorem getRdmaDeviceForEth_portLoop_eq (fs : SysFS) (netdevName dev : Bytes)
    (ports : List Bytes) :
    getRdmaDeviceForEth.portLoop fs netdevName dev ports
      = if ports.any (fun port => (getNetdeviceIds fs dev port).any
            (fun index => isNetdevForRdma fs dev port index netdevName))
        then some (.returned dev none) else none := by
  induction ports with
  | nil => simp [getRdmaDeviceForEth.portLoop]
  | cons port rest ih =>
    cases h : (getNetdeviceIds fs dev port).any
        (fun index => isNetdevForRdma fs dev port index netdevName)
    · simp only [getRdmaDeviceForEth.portLoop, getRdmaDeviceForEth_indexLoop_eq, h, ih]
      simp [h]
    · simp only [getRdmaDeviceForEth.portLoop, getRdmaDeviceForEth_indexLoop_eq, h]
      simp [h]

theorem getRdmaDeviceForEth_portLoop_some_iff (fs : SysFS) (netdevName dev : Bytes) :
    getRdmaDeviceForEth.portLoop fs netdevName dev (getPorts fs dev) = some (.returned dev none)
      ↔ ethMatch fs netdevName dev := by
  rw [getRdmaDeviceForEth_portLoop_eq]
  unfold ethMatch
  simp only [← isNetdevForRdma_iff]
  constructor
  · intro h
    split at h
    · rename_i hany
      simpa [List.any_eq_true] using hany
    · simp at h
  · intro h
    have hany : (getPorts fs dev).any (fun port => (getNetdeviceIds fs dev port).any
        (fun index => isNetdevForRdma fs dev port index netdevName)) = true := by
      simpa [List.any_eq_true] using h
    simp [hany]

theorem getRdmaDeviceForEth_portLoop_none_iff (fs : SysFS) (netdevName dev : Bytes) :
    getRdmaDeviceForEth.portLoop fs netdevName dev (getPorts fs dev) = none
      ↔ ¬ ethMatch fs netdevName dev := by
  rw [← getRdmaDeviceForEth_portLoop_some_iff, getRdmaDeviceForEth_portLoop_eq]
  split <;> simp

theorem getRdmaDeviceForEth_devLoop_first (fs : SysFS) (netdevName : Bytes)
    (pre : List Bytes) (dev : Bytes) (post : List Bytes)
    (hpre : ∀ d ∈ pre, ¬ ethMatch fs netdevName d) (hdev : ethMatch fs netdevName dev) :
    getRdmaDeviceForEth.devLoop fs netdevName (pre ++ dev :: post)
      = some (.returned dev none) := by
  induction pre with
  | nil =>
    simp [getRdmaDeviceForEth.devLoop,
      (getRdmaDeviceForEth_portLoop_some_iff fs netdevName dev).mpr hdev]
  | cons d rest ih =>
    have hd := (getRdmaDeviceForEth_portLoop_none_iff fs netdevName d).mpr
      (hpre d (List.mem_cons_self _ _))
    have := ih (fun x hx => hpre x (List.mem_cons_of_mem _ hx))
    simp [getRdmaDeviceForEth.devLoop, hd, this]

theorem getRdmaDeviceForEth_devLoop_none (fs : SysFS) (netdevName : Bytes)
    (devices : List Bytes) (h : ∀ d ∈ devices, ¬ ethMatch fs netdevName d) :
    getRdmaDeviceForEth.devLoop fs netdevName devices = none := by
  induction devices with
  | nil => simp [getRdmaDeviceForEth.devLoop]
  | cons d rest ih =>
    have hd := (getRdmaDeviceForEth_portLoop_none_iff fs netdevName d).mpr
      (h d (List.mem_cons_self _ _))
    have := ih (fun x hx => h x (List.mem_cons_of_mem _ hx))
    simp [getRdmaDeviceForEth.devLoop, hd, this]

theorem getRdmaDeviceForEth_devLoop_no_error (fs : SysFS) (netdevName : Bytes)
    (devices : List Bytes) :
    getRdmaDeviceForEth.devLoop fs netdevName devices = none
      ∨ ∃ dev ∈ devices, getRdmaDeviceForEth.devLoop fs netdevName devices
          = some (.returned dev none) := by
  induction devices with
  | nil => simp [getRdmaDeviceForEth.devLoop]
  | cons d rest ih =>
    by_cases hd : ethMatch fs netdevName d
    · right
      exact ⟨d, List.mem_cons_self _ _, by
        simp [getRdmaDeviceForEth.devLoop,
          (getRdmaDeviceForEth_portLoop_some_iff fs netdevName d).mpr hd]⟩
    · have hn := (getRdmaDeviceForEth_portLoop_none_iff fs netdevName d).mpr hd
      rcases ih with h | ⟨dev, hmem, h⟩
      · left; simp [getRdmaDeviceForEth.devLoop, hn, h]
      · right
        exact ⟨dev, List.mem_cons_of_mem _ hmem, by simp [getRdmaDeviceForEth.devLoop, hn, h]⟩

/-- C6: `getRdmaDeviceForEth` never returns an error; it returns the first
device, in the order of `GetRdmaDeviceList`, that has a port and a netdev index
whose file is readable and holds, with one trailing newline removed, exactly the
query name; and it returns the empty name when no device has one. -/
theorem getRdmaDeviceForEth_first_match (fs : SysFS) (netdevName : Bytes) :
    (∃ v, getRdmaDeviceForEth fs netdevName = .returned v none)
      ∧ (∀ pre dev post, GetRdmaDeviceList fs = pre ++ dev :: post →
          (∀ d ∈ pre, ¬ ethMatch fs netdevName d) → ethMatch fs netdevName dev →
          getRdmaDeviceForEth fs netdevName = .returned dev none)
      ∧ ((∀ d ∈ GetRdmaDeviceList fs, ¬ ethMatch fs netdevName d) →
          getRdmaDeviceForEth fs netdevName = .returned [] none) := by
  refine ⟨?_, ?_, ?_⟩
  · unfold getRdmaDeviceForEth
    rcases getRdmaDeviceForEth_devLoop_no_error fs netdevName (GetRdmaDeviceList fs) with
      h | ⟨dev, _, h⟩
    · exact ⟨[], by simp [h]⟩
    · exact ⟨dev, by simp [h]⟩
  · intro pre dev post hlist hpre hdev
    unfold getRdmaDeviceForEth
    simp [hlist, getRdmaDeviceForEth_devLoop_first fs netdevName pre dev post hpre hdev]
  · intro h
    unfold getRdmaDeviceForEth
    simp [getRdmaDeviceForEth_devLoop_none fs netdevName _ h]

/-- In `ethFS` the query `eth0` finds `mlx5_0`, the first of the two devices
bound to it; `eth0` followed by a space, `ETH0` and `eth` find no device. -/
theorem getRdmaDeviceForEth_first_match_witness :
    GetRdmaDeviceList ethFS = [] ++ ascii "mlx5_0" :: [ascii "mlx5_1"]
      ∧ ethMatch ethFS (ascii "eth0") (ascii "mlx5_0")
      ∧ getRdmaDeviceForEth ethFS (ascii "eth0") = .returned (ascii "mlx5_0") none
      ∧ getRdmaDeviceForEth ethFS (ascii "eth0 ") = .returned [] none
      ∧ getRdmaDeviceForEth ethFS (ascii "ETH0") = .returned [] none
      ∧ getRdmaDeviceForEth ethFS (ascii "eth") = .returned [] none := by
  have hm : ethMatch ethFS (ascii "eth0") (ascii "mlx5_0") :=
    ⟨ascii "1", by decide, ascii "0", by decide, ascii "eth0\n", by decide, by decide⟩
  exact ⟨by decide, hm,
    (getRdmaDeviceForEth_first_match ethFS (ascii "eth0")).2.1 [] (ascii "mlx5_0")
      [ascii "mlx5_1"] (by decide) (by simp) hm,
    by decide, by decide, by decide⟩

/-! ## The InfiniBand matcher -/

theorem bytesCompare_eq_zero_iff (a : List Nat) :
    ∀ b : List Nat, bytesCompare a b = 0 ↔ a = b := by
  induction a with
  | nil => intro b; cases b <;> simp [bytesCompare]
  | cons x xs ih =>
    intro b
    cases b with
    | nil => simp [bytesCompare]
    | cons y ys =>
      simp only [bytesCompare, List.cons.injEq]
      by_cases h1 : x < y
      · simp [h1]; omega
      · by_cases h2 : y < x
        · simp [h1, h2]; omega
        · have : x = y := by omega
          simp [h1, h2, this, ih]

theorem getRdmaDeviceForIb_loop_differs (fs : SysFS) (eui : List Nat) (dev : Bytes)
    (rest : List Bytes) (h : guidDiffers fs eui dev) :
    getRdmaDeviceForIb.loop fs eui (dev :: rest) = getRdmaDeviceForIb.loop fs eui rest := by
  obtain ⟨g, hg, hne⟩ := h
  have hc : ¬ bytesCompare eui g = 0 := fun h0 =>
    hne ((bytesCompare_eq_zero_iff eui g).mp h0).symm
  simp [getRdmaDeviceForIb.loop, hg, hc]

theorem getRdmaDeviceForIb_loop_equal (fs : SysFS) (eui : List Nat) (dev : Bytes)
    (rest : List Bytes) (h : getNodeGuid fs dev = .returned eui none) :
    getRdmaDeviceForIb.loop fs eui (dev :: rest) = .returned dev none := by
  simp [getRdmaDeviceForIb.loop, h, (bytesCompare_eq_zero_iff eui eui).mpr rfl]

theorem getRdmaDeviceForIb_loop_fails (fs : SysFS) (eui : List Nat) (dev : Bytes)
    (rest : List Bytes) {v : List Nat} {e : GoError}
    (h : getNodeGuid fs dev = .returned v (some e)) :
    getRdmaDeviceForIb.loop fs eui (dev :: rest) = .returned [] (some e) := by
  simp [getRdmaDeviceForIb.loop, h]

theorem getRdmaDeviceForIb_loop_first (fs : SysFS) (eui : List Nat)
    (pre : List Bytes) (dev : Bytes) (post : List Bytes)
    (hpre : ∀ d ∈ pre, guidDiffers fs eui d) (hdev : getNodeGuid fs dev = .returned eui none) :
    getRdmaDeviceForIb.loop fs eui (pre ++ dev :: post) = .returned dev none := by
  induction pre with
  | nil => exact getRdmaDeviceForIb_loop_equal fs eui dev post hdev
  | cons d rest ih =>
    rw [List.cons_append, getRdmaDeviceForIb_loop_differs fs eui d _
      (hpre d (List.mem_cons_self _ _))]
    exact ih (fun x hx => hpre x (List.mem_cons_of_mem _ hx))

theorem getRdmaDeviceForIb_loop_none (fs : SysFS) (eui : List Nat) (devices : List Bytes)
    (h : ∀ d ∈ devices, guidDiffers fs eui d) :
    getRdmaDeviceForIb.loop fs eui devices = .returned [] none := by
  induction devices with
  | nil => simp [getRdmaDeviceForIb.loop]
  | cons d rest ih =>
    rw [getRdmaDeviceForIb_loop_differs fs eui d _ (h d (List.mem_cons_self _ _))]
    exact ih (fun x hx => h x (List.mem_cons_of_mem _ hx))

/-- The function `getNodeGuid` panics on the empty file only. -/
theorem getNodeGuid_panicked_iff (fs : SysFS) (dev : Bytes) :
    getNodeGuid fs dev = .panicked ↔ ¬ guidFileNotEmpty fs dev := by
  unfold guidFileNotEmpty getNodeGuid
  simp only
  cases hr : fs.readAll (filepathJoin [RdmaClassDir, dev, RdmaNodeGuidFile]) with
  | error e => simp
  | ok data =>
    by_cases hne : data = []
    · subst hne; simp [getNodeGuid.decode]
    · simp only [ne_eq, Except.ok.injEq, hne, not_false_eq_true, not_true_eq_false, iff_false]
      intro hp
      rcases getNodeGuid_decode_total hne with ⟨v, hv, _⟩ | ⟨b, _, _, _, hb⟩
      · rw [hv] at hp; simp at hp
      · rw [hb] at hp; simp at hp

theorem getRdmaDeviceForIb_loop_error_iff (fs : SysFS) (eui : List Nat) (devices : List Bytes)
    (hfiles : ∀ dev, reached fs eui devices dev → guidFileNotEmpty fs dev) :
    (∃ e, getRdmaDeviceForIb.loop fs eui devices = .returned [] (some e))
      ↔ ∃ pre dev post, devices = pre ++ dev :: post ∧ guidFails fs dev
          ∧ ∀ d ∈ pre, getNodeGuid fs d ≠ .returned eui none := by
  induction devices with
  | nil => simp [getRdmaDeviceForIb.loop]
  | cons a rest ih =>
    have hnp : getNodeGuid fs a ≠ .panicked := fun hp =>
      (getNodeGuid_panicked_iff fs a).mp hp (hfiles a ⟨[], rest, rfl, by simp⟩)
    cases hg : getNodeGuid fs a with
    | panicked => exact absurd hg hnp
    | returned v err =>
      cases err with
      | some e =>
        rw [getRdmaDeviceForIb_loop_fails fs eui a rest hg]
        constructor
        · intro _
          exact ⟨[], a, rest, rfl, ⟨v, e, hg⟩, by simp⟩
        · intro _
          exact ⟨e, rfl⟩
      | none =>
        by_cases heq : v = eui
        · subst heq
          rw [getRdmaDeviceForIb_loop_equal fs v a rest hg]
          constructor
          · rintro ⟨e, he⟩
            simp at he
          · rintro ⟨pre, dev, post, hsplit, ⟨v', e', hf⟩, hpre⟩
            cases pre with
            | nil =>
              simp only [List.nil_append, List.cons.injEq] at hsplit
              rw [← hsplit.1, hg] at hf
              simp at hf
            | cons p pre' =>
              simp only [List.cons_append, List.cons.injEq] at hsplit
              exact absurd (hsplit.1 ▸ hg) (hpre p (List.mem_cons_self _ _))
        · have hdiff : guidDiffers fs eui a := ⟨v, hg, heq⟩
          have iha := ih (fun dev hr => by
            obtain ⟨pre, post, hsplit, hpre⟩ := hr
            refine hfiles dev ⟨a :: pre, post, by simp [hsplit], ?_⟩
            intro d hd
            rcases List.mem_cons.mp hd with rfl | hd
            · exact hdiff
            · exact hpre d hd)
          rw [getRdmaDeviceForIb_loop_differs fs eui a rest hdiff, iha]
          constructor
          · rintro ⟨pre, dev, post, hsplit, hf, hpre⟩
            refine ⟨a :: pre, dev, post, by simp [hsplit], hf, ?_⟩
            intro d hd
            rcases List.mem_cons.mp hd with rfl | hd
            · rw [hg]; simpa using heq
            · exact hpre d hd
          · rintro ⟨pre, dev, post, hsplit, ⟨v', e', hf⟩, hpre⟩
            cases pre with
            | nil =>
              simp only [List.nil_append, List.cons.injEq] at hsplit
              rw [← hsplit.1, hg] at hf
              simp at hf
            | cons p pre' =>
              simp only [List.cons_append, List.cons.injEq] at hsplit
              exact ⟨pre', dev, post, hsplit.2, ⟨v', e', hf⟩,
                fun d hd => hpre d (List.mem_cons_of_mem _ hd)⟩

theorem getRdmaDeviceForIb_loop_error_val (fs : SysFS) (eui : List Nat)
    (devices : List Bytes) (v : Bytes) (e : GoError)
    (h : getRdmaDeviceForIb.loop fs eui devices = .returned v (some e)) : v = [] := by
  induction devices with
  | nil => simp [getRdmaDeviceForIb.loop] at h
  | cons a rest ih =>
    unfold getRdmaDeviceForIb.loop at h
    cases hg : getNodeGuid fs a with
    | panicked => rw [hg] at h; simp at h
    | returned g err =>
      rw [hg] at h
      cases err with
      | some e' =>
        simp only [Outcome.returned.injEq] at h
        exact h.1.symm
      | none =>
        simp only at h
        split at h
        · simp at h
        · exact ih h

theorem getRdmaDeviceForIb_eq (fs : SysFS) (netdevName : Bytes) (linkAttr : LinkAttrs)
    (hlen : 12 ≤ linkAttr.HardwareAddr.length) :
    getRdmaDeviceForIb fs netdevName linkAttr
      = getRdmaDeviceForIb.loop fs (linkAttr.HardwareAddr.drop 12) (GetRdmaDeviceList fs) := by
  have : ¬ linkAttr.HardwareAddr.length < 12 := by omega
  simp [getRdmaDeviceForIb, this]

/-- C5, as the code has it: on a hardware address of at least 12 bytes
`getRdmaDeviceForIb` compares the bytes of the address from offset 12 on, which
are its last 8 bytes when the address has 20 bytes, with each device's decoded
node GUID: it returns the first device, in the order of `GetRdmaDeviceList`,
whose node GUID equals them when the node GUID of every device before it was
decoded, and the empty name without error when the node GUID of every device
was decoded and none equals them. -/
theorem getRdmaDeviceForIb_first_match (fs : SysFS) (netdevName : Bytes)
    (linkAttr : LinkAttrs) (hlen : 12 ≤ linkAttr.HardwareAddr.length) :
    (linkAttr.HardwareAddr.length = 20 →
        linkAttr.HardwareAddr.drop 12
          = linkAttr.HardwareAddr.drop (linkAttr.HardwareAddr.length - 8))
      ∧ (∀ pre dev post, GetRdmaDeviceList fs = pre ++ dev :: post →
          (∀ d ∈ pre, guidDiffers fs (linkAttr.HardwareAddr.drop 12) d) →
          getNodeGuid fs dev = .returned (linkAttr.HardwareAddr.drop 12) none →
          getRdmaDeviceForIb fs netdevName linkAttr = .returned dev none)
      ∧ ((∀ d ∈ GetRdmaDeviceList fs, guidDiffers fs (linkAttr.HardwareAddr.drop 12) d) →
          getRdmaDeviceForIb fs netdevName linkAttr = .returned [] none) := by
  rw [getRdmaDeviceForIb_eq fs netdevName linkAttr hlen]
  refine ⟨?_, ?_, ?_⟩
  · intro h20
    rw [h20]
  · intro pre dev post hlist hpre hdev
    rw [hlist]
    exact getRdmaDeviceForIb_loop_first fs _ pre dev post hpre hdev
  · intro h
    exact getRdmaDeviceForIb_loop_none fs _ _ h

/-- In `twoGuidFS` the 20-byte address that ends with the node GUID of `mlx5_1`
finds `mlx5_1`, after `mlx5_0` whose node GUID differs. -/
theorem getRdmaDeviceForIb_first_match_witness :
    12 ≤ (ipoibAddr [0x00, 0x1b, 0x21, 0xaa, 0xff, 0xcc, 0xdd, 0x02]).length
      ∧ GetRdmaDeviceList twoGuidFS = [ascii "mlx5_0"] ++ ascii "mlx5_1" :: []
      ∧ getRdmaDeviceForIb twoGuidFS (ascii "ib0")
          ⟨ascii "infiniband", ipoibAddr [0x00, 0x1b, 0x21, 0xaa, 0xff, 0xcc, 0xdd, 0x02]⟩
        = .returned (ascii "mlx5_1") none :=
  ⟨by decide, by decide,
    (getRdmaDeviceForIb_first_match twoGuidFS (ascii "ib0")
      ⟨ascii "infiniband", ipoibAddr [0x00, 0x1b, 0x21, 0xaa, 0xff, 0xcc, 0xdd, 0x02]⟩
      (by decide)).2.1 [ascii "mlx5_0"] (ascii "mlx5_1") [] (by decide)
      (by
        intro d hd
        rw [List.mem_singleton.mp hd]
        exact ⟨[0x00, 0x1b, 0x21, 0xaa, 0xff, 0xcc, 0xdd, 0x01], by decide, by decide⟩)
      (by decide)⟩

/-- C5 as stated fails: the last 8 bytes of the 16-byte address `shortAddr` are
the node GUID of `mlx5_0`, and `getRdmaDeviceForIb` finds no device, since it
compares the 4 bytes from offset 12 on; on the address made of those 8 bytes
alone it panics. -/
theorem getRdmaDeviceForIb_short_address :
    8 ≤ shortAddr.length
      ∧ GetRdmaDeviceList twoGuidFS = [ascii "mlx5_0", ascii "mlx5_1"]
      ∧ getNodeGuid twoGuidFS (ascii "mlx5_0")
        = .returned (shortAddr.drop (shortAddr.length - 8)) none
      ∧ getRdmaDeviceForIb twoGuidFS (ascii "ib0") ⟨ascii "infiniband", shortAddr⟩
        = .returned [] none
      ∧ getRdmaDeviceForIb twoGuidFS (ascii "ib0") ⟨ascii "infiniband", shortAddr.drop 8⟩
        = .panicked := by
  decide

/-- C10, as the code has it: on a hardware address of at least 12 bytes, when
no device that the walk reaches has an empty `node_guid` file,
`getRdmaDeviceForIb` returns an error exactly when some device, in the order of
`GetRdmaDeviceList`, has a node GUID that cannot be read or decoded and no
device before it has a node GUID equal to the bytes compared; the name returned
with an error is empty.  Devices after the first match or the first failure are
not reached, whatever their files hold. -/
theorem getRdmaDeviceForIb_error_iff (fs : SysFS) (netdevName : Bytes)
    (linkAttr : LinkAttrs) (hlen : 12 ≤ linkAttr.HardwareAddr.length)
    (hfiles : ∀ dev, reached fs (linkAttr.HardwareAddr.drop 12) (GetRdmaDeviceList fs) dev →
      guidFileNotEmpty fs dev) :
    ((∃ e, getRdmaDeviceForIb fs netdevName linkAttr = .returned [] (some e))
        ↔ ∃ pre dev post, GetRdmaDeviceList fs = pre ++ dev :: post ∧ guidFails fs dev
            ∧ ∀ d ∈ pre, getNodeGuid fs d ≠ .returned (linkAttr.HardwareAddr.drop 12) none)
      ∧ ∀ v e, getRdmaDeviceForIb fs netdevName linkAttr = .returned v (some e) → v = [] := by
  rw [getRdmaDeviceForIb_eq fs netdevName linkAttr hlen]
  exact ⟨getRdmaDeviceForIb_loop_error_iff fs _ _ hfiles,
    fun v e h => getRdmaDeviceForIb_loop_error_val fs _ _ v e h⟩

/-- In `failingGuidFS` the walk for the node GUID of `mlx5_2` reaches `mlx5_0` and
`mlx5_1` only, and neither has an empty `node_guid` file. -/
theorem failingGuidFS_reached :
    ∀ dev, reached failingGuidFS
        ((ipoibAddr [0x00, 0x1b, 0x21, 0xaa, 0xff, 0xcc, 0xdd, 0x02]).drop 12)
        (GetRdmaDeviceList failingGuidFS) dev →
      guidFileNotEmpty failingGuidFS dev := by
  have hl : GetRdmaDeviceList failingGuidFS
      = [ascii "mlx5_0", ascii "mlx5_1", ascii "mlx5_2", ascii "mlx5_3"] := by decide
  rw [hl]
  rintro dev ⟨pre, post, hsplit, hpre⟩
  rcases pre with _ | ⟨p0, _ | ⟨p1, pre'⟩⟩
  · simp only [List.nil_append, List.cons.injEq] at hsplit
    rw [← hsplit.1]
    unfold guidFileNotEmpty
    decide
  · simp only [List.cons_append, List.nil_append, List.cons.injEq] at hsplit
    rw [← hsplit.2.1]
    unfold guidFileNotEmpty
    decide
  · simp only [List.cons_append, List.cons.injEq] at hsplit
    obtain ⟨g, hg, _⟩ := hpre p1 (by simp)
    rw [← hsplit.2.1] at hg
    have hm : getNodeGuid failingGuidFS (ascii "mlx5_1") = .returned [] (some (.os 2)) := by
      decide
    rw [hm] at hg
    simp at hg

/-- In `failingGuidFS` the node GUID of `mlx5_1` cannot be read: looking for the
node GUID of `mlx5_2` fails, looking for that of `mlx5_0`, which stands before
`mlx5_1`, finds `mlx5_0`; the empty `node_guid` file of `mlx5_3`, which the walk
does not reach, changes neither answer. -/
theorem getRdmaDeviceForIb_error_iff_witness :
    12 ≤ (ipoibAddr [0x00, 0x1b, 0x21, 0xaa, 0xff, 0xcc, 0xdd, 0x02]).length
      ∧ (∀ dev, reached failingGuidFS
            ((ipoibAddr [0x00, 0x1b, 0x21, 0xaa, 0xff, 0xcc, 0xdd, 0x02]).drop 12)
            (GetRdmaDeviceList failingGuidFS) dev →
          guidFileNotEmpty failingGuidFS dev)
      ∧ ¬ guidFileNotEmpty failingGuidFS (ascii "mlx5_3")
      ∧ (∃ e, getRdmaDeviceForIb failingGuidFS (ascii "ib0")
          ⟨ascii "infiniband", ipoibAddr [0x00, 0x1b, 0x21, 0xaa, 0xff, 0xcc, 0xdd, 0x02]⟩
          = .returned [] (some e))
      ∧ getRdmaDeviceForIb failingGuidFS (ascii "ib0")
          ⟨ascii "infiniband", ipoibAddr [0x00, 0x1b, 0x21, 0xaa, 0xff, 0xcc, 0xdd, 0x01]⟩
        = .returned (ascii "mlx5_0") none :=
  ⟨by decide, failingGuidFS_reached,
    by unfold guidFileNotEmpty; decide,
    ((getRdmaDeviceForIb_error_iff failingGuidFS (ascii "ib0")
      ⟨ascii "infiniband", ipoibAddr [0x00, 0x1b, 0x21, 0xaa, 0xff, 0xcc, 0xdd, 0x02]⟩
      (by decide) failingGuidFS_reached).1).mpr
      ⟨[ascii "mlx5_0"], ascii "mlx5_1", [ascii "mlx5_2", ascii "mlx5_3"], by decide,
        ⟨[], .os 2, by decide⟩,
        by
          intro d hd
          rw [List.mem_singleton.mp hd]
          decide⟩,
    by decide⟩

/-- C10 as stated fails: the only device of `missingGuidFS` has a node GUID that
cannot be read, and on an 8-byte hardware address `getRdmaDeviceForIb` does not
return an error: the slice `HardwareAddr[12:]` panics.  On a 20-byte address it
does not return an error either when a device reached before the failing one
has an empty `node_guid` file, as in `emptyThenMissingFS`: `getNodeGuid` panics
on that device. -/
theorem getRdmaDeviceForIb_short_address_panics :
    (GetRdmaDeviceList missingGuidFS = [] ++ ascii "mlx5_0" :: []
        ∧ guidFails missingGuidFS (ascii "mlx5_0")
        ∧ getRdmaDeviceForIb missingGuidFS (ascii "ib0")
            ⟨ascii "infiniband", [0x00, 0x1b, 0x21, 0xaa, 0xff, 0xcc, 0xdd, 0x01]⟩
          = .panicked)
      ∧ (GetRdmaDeviceList emptyThenMissingFS = [ascii "mlx5_0"] ++ ascii "mlx5_1" :: []
        ∧ guidFails emptyThenMissingFS (ascii "mlx5_1")
        ∧ getNodeGuid emptyThenMissingFS (ascii "mlx5_0")
          ≠ .returned ((ipoibAddr [0x00, 0x1b, 0x21, 0xaa, 0xff, 0xcc, 0xdd, 0x01]).drop 12) none
        ∧ getRdmaDeviceForIb emptyThenMissingFS (ascii "ib0")
            ⟨ascii "infiniband", ipoibAddr [0x00, 0x1b, 0x21, 0xaa, 0xff, 0xcc, 0xdd, 0x01]⟩
          = .panicked) :=
  ⟨⟨by decide, ⟨[], .os 2, by decide⟩, by decide⟩,
    ⟨by decide, ⟨[], .os 2, by decide⟩, by decide, by decide⟩⟩

/-! ## The resolver -/

/-- C9: `GetRdmaDeviceForNetdevice` returns the error of the link lookup when it
fails; its result is that of `getRdmaDeviceForEth` when the encapsulation type
is `ether`, that of `getRdmaDeviceForIb` when it is `infiniband`, and for every
other type an error with the empty name, whatever the tree. -/
theorem GetRdmaDeviceForNetdevice_dispatch (linkByName : Bytes → Except GoError LinkAttrs)
    (fs : SysFS) (netdevName : Bytes) :
    (∀ e, linkByName netdevName = .error e →
        GetRdmaDeviceForNetdevice linkByName fs netdevName = .returned [] (some e))
      ∧ (∀ a, linkByName netdevName = .ok a → a.EncapType = ascii "ether" →
        GetRdmaDeviceForNetdevice linkByName fs netdevName = getRdmaDeviceForEth fs netdevName)
      ∧ (∀ a, linkByName netdevName = .ok a → a.EncapType = ascii "infiniband" →
        GetRdmaDeviceForNetdevice linkByName fs netdevName
          = getRdmaDeviceForIb fs netdevName a)
      ∧ (∀ a, linkByName netdevName = .ok a → a.EncapType ≠ ascii "ether" →
        a.EncapType ≠ ascii "infiniband" →
        GetRdmaDeviceForNetdevice linkByName fs netdevName
          = .returned [] (some (.errorf (ascii "Unknown device type")))) := by
  refine ⟨?_, ?_, ?_, ?_⟩
  · intro e h
    simp [GetRdmaDeviceForNetdevice, h]
  · intro a h he
    simp [GetRdmaDeviceForNetdevice, h, he]
  · intro a h hi
    have hne : ¬ (ascii "infiniband" = ascii "ether") := by decide
    simp only [GetRdmaDeviceForNetdevice, h, hi, hne, if_false, if_true]
  · intro a h he hi
    simp [GetRdmaDeviceForNetdevice, h, he, hi]

/-- With the links of `exampleLinks` over the tree `ethFS`: the unknown link
`wlan0` gives the error of the lookup, `eth0` the answer of the Ethernet
matcher, `ib0` that of the InfiniBand matcher, and `lo` an error. -/
theorem GetRdmaDeviceForNetdevice_dispatch_witness :
    GetRdmaDeviceForNetdevice exampleLinks ethFS (ascii "wlan0") = .returned [] (some (.os 19))
      ∧ GetRdmaDeviceForNetdevice exampleLinks ethFS (ascii "eth0")
        = getRdmaDeviceForEth ethFS (ascii "eth0")
      ∧ GetRdmaDeviceForNetdevice exampleLinks ethFS (ascii "ib0")
        = getRdmaDeviceForIb ethFS (ascii "ib0")
            ⟨ascii "infiniband", ipoibAddr [0x00, 0x1b, 0x21, 0xaa, 0xff, 0xcc, 0xdd, 0x02]⟩
      ∧ GetRdmaDeviceForNetdevice exampleLinks ethFS (ascii "lo")
        = .returned [] (some (.errorf (ascii "Unknown device type"))) :=
  ⟨(GetRdmaDeviceForNetdevice_dispatch exampleLinks ethFS (ascii "wlan0")).1 (.os 19)
      (by decide),
    (GetRdmaDeviceForNetdevice_dispatch exampleLinks ethFS (ascii "eth0")).2.1
      ⟨ascii "ether", [0x00, 0x1b, 0x21, 0xaa, 0xff, 0xcc]⟩ (by decide) (by decide),
    (GetRdmaDeviceForNetdevice_dispatch exampleLinks ethFS (ascii "ib0")).2.2.1
      ⟨ascii "infiniband", ipoibAddr [0x00, 0x1b, 0x21, 0xaa, 0xff, 0xcc, 0xdd, 0x02]⟩
      (by decide) (by decide),
    (GetRdmaDeviceForNetdevice_dispatch exampleLinks ethFS (ascii "lo")).2.2.2
      ⟨ascii "loopback", [0, 0, 0, 0, 0, 0]⟩ (by decide) (by decide) (by decide)⟩

/-! ## The character devices -/

theorem splitSep_cons_sep (cs : Bytes) : splitSep (47 :: cs) = [] :: splitSep cs := by
  simp [splitSep]

theorem splitSep_ne_nil (cs : Bytes) : splitSep cs ≠ [] := by
  induction cs with
  | nil => simp [splitSep]
  | cons c cs ih =>
    unfold splitSep
    split
    · simp
    · split <;> simp

theorem splitSep_cons_of_ne {c : Nat} (h : c ≠ 47) (cs : Bytes) :
    splitSep (c :: cs) = (c :: (splitSep cs).headD []) :: (splitSep cs).tail := by
  have hne := splitSep_ne_nil cs
  cases hs : splitSep cs with
  | nil => exact absurd hs hne
  | cons x xs => simp [splitSep, h, hs]

theorem splitSep_no_sep (name : Bytes) (h : 47 ∉ name) : splitSep name = [name] := by
  induction name with
  | nil => simp [splitSep]
  | cons c cs ih =>
    have hc : c ≠ 47 := fun hc => h (by simp [hc])
    have hcs : 47 ∉ cs := fun hm => h (List.mem_cons_of_mem _ hm)
    rw [splitSep_cons_of_ne hc, ih hcs]
    simp

theorem filepathJoin_dev (name : Bytes) (hv : validEntryName name)
    (h1 : name ≠ ascii ".") (h2 : name ≠ ascii "..") :
    filepathJoin [ascii "/dev/infiniband", name] = ascii "/dev/infiniband/" ++ name := by
  obtain ⟨hne, hsep⟩ := hv
  have hc : ascii "/dev/infiniband"
      = [47, 100, 101, 118, 47, 105, 110, 102, 105, 110, 105, 98, 97, 110, 100] := by decide
  have hc' : ascii "/dev/infiniband/"
      = [47, 100, 101, 118, 47, 105, 110, 102, 105, 110, 105, 98, 97, 110, 100, 47] := by decide
  have hd1 : ascii "." = [46] := by decide
  have hd2 : ascii ".." = [46, 46] := by decide
  rw [hd1] at h1
  rw [hd2] at h2
  rw [hc, hc']
  simp [filepathJoin, filepathClean, List.intercalate, List.intersperse, splitSep_cons_sep,
    splitSep_cons_of_ne, splitSep_no_sep name hsep, cleanStep, hne, h1, h2]

theorem getCharDevice_loop_eq (fs : SysFS) (rdmaDeviceName classDir pfx : Bytes)
    (hdot : stringsContains (ascii ".") pfx = false)
    (hdots : stringsContains (ascii "..") pfx = false) (entries : List FileInfo)
    (hv : ∀ fi ∈ entries, validEntryName fi.Name) :
    getCharDevice.loop fs rdmaDeviceName classDir pfx entries =
      match entries.find? (fun fi =>
        stringsContains fi.Name pfx && ownedBy fs rdmaDeviceName classDir fi.Name) with
      | some fi => .returned (ascii "/dev/infiniband/" ++ fi.Name) none
      | none => .returned [] (some (.errorf (ascii "No ucm device found"))) := by
  induction entries with
  | nil => simp [getCharDevice.loop]
  | cons fi rest ih =>
    have ihr := ih (fun x hx => hv x (List.mem_cons_of_mem _ hx))
    have hvalid := hv fi (List.mem_cons_self _ _)
    unfold getCharDevice.loop
    by_cases hd : fi.Name = ascii "." ∨ fi.Name = ascii ".."
    · have hc : stringsContains fi.Name pfx = false := by
        rcases hd with h | h <;> rw [h] <;> assumption
      simp [hd, hc, ihr]
    · cases hc : stringsContains fi.Name pfx
      · simp [hd, hc, ihr]
      · have hown : isDirForRdmaDevice fs rdmaDeviceName (filepathJoin [classDir, fi.Name])
            = ownedBy fs rdmaDeviceName classDir fi.Name := rfl
        cases ho : ownedBy fs rdmaDeviceName classDir fi.Name
        · simp [hd, hc, hown, ho, ihr]
        · have hj := filepathJoin_dev fi.Name hvalid (fun h => hd (Or.inl h))
            (fun h => hd (Or.inr h))
          simp [hd, hc, hown, ho, hj]

theorem appendIfNoError_getCharDevice (fs : SysFS) (rdmaDeviceName classDir pfx : Bytes)
    (hdot : stringsContains (ascii ".") pfx = false)
    (hdots : stringsContains (ascii "..") pfx = false)
    (hv : ∀ entries, fs.readdir classDir = .ok entries →
      ∀ fi ∈ entries, validEntryName fi.Name) (acc : List Bytes) :
    appendIfNoError acc (getCharDevice fs rdmaDeviceName classDir pfx)
      = some (acc ++ (firstCharDevice fs rdmaDeviceName classDir pfx).toList) := by
  unfold getCharDevice firstCharDevice
  cases hr : fs.readdir classDir with
  | error e => simp [appendIfNoError]
  | ok entries =>
    simp only
    rw [getCharDevice_loop_eq fs rdmaDeviceName classDir pfx hdot hdots entries (hv entries hr)]
    cases entries.find? (fun fi =>
        stringsContains fi.Name pfx && ownedBy fs rdmaDeviceName classDir fi.Name) with
    | none => simp [appendIfNoError]
    | some fi => simp [appendIfNoError]

/-- C8: `GetRdmaCharDevices` returns, in the order ucm, issm, umad, uverbs, the
path of each category that has one, at most four paths in all: for a class
directory and a name part, `/dev/infiniband/` followed by the name of the first
entry of the class directory, in listing order, whose name contains the name
part and whose sibling `ibdev` file is readable and contains the device name;
a category without such an entry, or whose class directory cannot be opened,
adds nothing. -/
theorem GetRdmaCharDevices_eq (fs : SysFS) (rdmaDeviceName : Bytes)
    (hnames : charDirsValid fs) :
    GetRdmaCharDevices fs rdmaDeviceName
        = some ((firstCharDevice fs rdmaDeviceName RdmaIbUcmDir RdmaUcmFilePrefix).toList
          ++ (firstCharDevice fs rdmaDeviceName RdmaUmadDir RdmaIssmFilePrefix).toList
          ++ (firstCharDevice fs rdmaDeviceName RdmaUmadDir RdmaUmadFilxPrefix).toList
          ++ (firstCharDevice fs rdmaDeviceName RdmaUverbsDir RdmaUverbsFilxPrefix).toList)
      ∧ ∀ paths, GetRdmaCharDevices fs rdmaDeviceName = some paths → paths.length ≤ 4 := by
  have hucm := appendIfNoError_getCharDevice fs rdmaDeviceName RdmaIbUcmDir RdmaUcmFilePrefix
    (by decide) (by decide) (hnames RdmaIbUcmDir (by simp))
  have hissm := appendIfNoError_getCharDevice fs rdmaDeviceName RdmaUmadDir RdmaIssmFilePrefix
    (by decide) (by decide) (hnames RdmaUmadDir (by simp))
  have humad := appendIfNoError_getCharDevice fs rdmaDeviceName RdmaUmadDir RdmaUmadFilxPrefix
    (by decide) (by decide) (hnames RdmaUmadDir (by simp))
  have huverbs := appendIfNoError_getCharDevice fs rdmaDeviceName RdmaUverbsDir
    RdmaUverbsFilxPrefix (by decide) (by decide) (hnames RdmaUverbsDir (by simp))
  have heq : GetRdmaCharDevices fs rdmaDeviceName
      = some ((firstCharDevice fs rdmaDeviceName RdmaIbUcmDir RdmaUcmFilePrefix).toList
        ++ (firstCharDevice fs rdmaDeviceName RdmaUmadDir RdmaIssmFilePrefix).toList
        ++ (firstCharDevice fs rdmaDeviceName RdmaUmadDir RdmaUmadFilxPrefix).toList
        ++ (firstCharDevice fs rdmaDeviceName RdmaUverbsDir RdmaUverbsFilxPrefix).toList) := by
    simp only [GetRdmaCharDevices, getUcmDevice, getIssmDevice, getUmadDevice, getUverbDevice,
      hucm, hissm, humad, huverbs, bind, Option.bind, pure, List.nil_append]
  refine ⟨heq, ?_⟩
  intro paths hp
  rw [heq] at hp
  simp only [Option.some.injEq] at hp
  subst hp
  have hle : ∀ o : Option Bytes, o.toList.length ≤ 1 := by
    intro o; cases o <;> simp
  have h1 := hle (firstCharDevice fs rdmaDeviceName RdmaIbUcmDir RdmaUcmFilePrefix)
  have h2 := hle (firstCharDevice fs rdmaDeviceName RdmaUmadDir RdmaIssmFilePrefix)
  have h3 := hle (firstCharDevice fs rdmaDeviceName RdmaUmadDir RdmaUmadFilxPrefix)
  have h4 := hle (firstCharDevice fs rdmaDeviceName RdmaUverbsDir RdmaUverbsFilxPrefix)
  simp only [List.length_append]
  omega

theorem charFS_valid : charDirsValid charFS := by
  intro dir hdir entries hr fi hfi
  simp only [List.mem_cons, List.mem_singleton, List.not_mem_nil, or_false] at hdir
  rcases hdir with rfl | rfl | rfl
  · have h : charFS.readdir RdmaIbUcmDir
        = .ok [⟨ascii "ucm0", false⟩, ⟨ascii "ucm1", false⟩] := by decide
    rw [h] at hr
    cases hr
    revert fi
    decide
  · have h : charFS.readdir RdmaUmadDir
        = .ok [⟨ascii "issm0", false⟩, ⟨ascii "umad0", false⟩, ⟨ascii "issm1", false⟩,
          ⟨ascii "umad1", false⟩] := by decide
    rw [h] at hr
    cases hr
    revert fi
    decide
  · have h : charFS.readdir RdmaUverbsDir
        = .ok [⟨ascii "uverbs0", false⟩, ⟨ascii "uverbs1", false⟩, ⟨ascii "uverbs2", false⟩] := by
      decide
    rw [h] at hr
    cases hr
    revert fi
    decide

/-- In `charFS` the device `mlx5_1` has the four character devices numbered 1,
though those of `mlx5_0` are listed before them; `mlx4_0` has a uverbs device
only. -/
theorem GetRdmaCharDevices_eq_witness :
    charDirsValid charFS
      ∧ GetRdmaCharDevices charFS (ascii "mlx5_1")
        = some [ascii "/dev/infiniband/ucm1", ascii "/dev/infiniband/issm1",
            ascii "/dev/infiniband/umad1", ascii "/dev/infiniband/uverbs1"]
      ∧ GetRdmaCharDevices charFS (ascii "mlx4_0") = some [ascii "/dev/infiniband/uverbs2"] := by
  refine ⟨charFS_valid, ?_, ?_⟩
  · rw [(GetRdmaCharDevices_eq charFS (ascii "mlx5_1") charFS_valid).1]
    decide
  · rw [(GetRdmaCharDevices_eq charFS (ascii "mlx4_0") charFS_valid).1]
    decide

end Rdmamap
